import Mathlib

/-!
Verification development for the InkGenius repository (a browser tattoo-design
tool).  The TypeScript sources are shallowly embedded:

* `services/geminiService.ts` — each exported service function performs a
  single call to the hosted Gemini API and post-processes the outcome.  The
  hosted call itself is external code, so every service function is modelled
  as a pure function of the *outcome* of that call (an `Except Thrown …`
  value); everything the repository itself does to that outcome (response
  unwrapping, JSON-fence stripping, error wrapping) is translated faithfully.
* `App.tsx` (file `unnamed/part_001`) — the wizard state machine, the
  `projects` list, the `localStorage` persistence and the data-URL helpers.

JavaScript strings are modelled as Lean `String`s, except in the data-URL
parsing helpers where `List Char` is used directly (a JS string is a sequence
of code units; none of the inputs involved need surrogate-pair subtleties).
JS `undefined`-able fields are `Option`s; JS truthiness of a string field
(`undefined` and `""` are falsy) is `jsTruthy`.
-/

namespace InkGenius

/-- A JavaScript thrown value: either an `Error` instance carrying a message,
or any other thrown value (JS code may `throw` non-`Error` values, which is
exactly why the repository's catch blocks test `error instanceof Error`). -/
inductive Thrown where
  | errorObj (msg : String)
  | nonError
deriving DecidableEq, Repr

/-- Whether a thrown value is an `Error` instance. -/
def Thrown.isErrorObj : Thrown → Bool
  | .errorObj _ => true
  | .nonError => false

/-- JS truthiness of an optional string field: `undefined` and `""` are falsy. -/
def jsTruthy : Option String → Bool
  | none => false
  | some s => !(s = "")

/-- JS `o || ''` on an optional string. -/
def jsOrEmpty : Option String → String
  | none => ""
  | some s => s

/-! ### Gemini response shapes (the fields the repository reads) -/

structure InlineData where
  mimeType : String
  data : String
deriving DecidableEq, Repr

structure Part where
  inlineData : Option InlineData
  text : Option String
deriving DecidableEq, Repr

structure Content where
  parts : Option (List Part)
deriving DecidableEq, Repr

/-- Model of `groundingChunks[i].web` — the fields read by `findArtists`. -/
structure WebSource where
  uri : Option String
  title : Option String
deriving DecidableEq, Repr

structure GroundingChunk where
  web : Option WebSource
deriving DecidableEq, Repr

structure GroundingMetadata where
  groundingChunks : Option (List GroundingChunk)
deriving DecidableEq, Repr

structure Candidate where
  content : Option Content
  finishReason : Option String
  groundingMetadata : Option GroundingMetadata
deriving DecidableEq, Repr

structure PromptFeedback where
  blockReason : Option String
  blockReasonMessage : Option String
deriving DecidableEq, Repr

/-- The slice of `GenerateContentResponse` the repository reads.  (In the SDK
`response.text` is a getter; here it is carried as a field.) -/
structure GenContentResponse where
  promptFeedback : Option PromptFeedback
  candidates : Option (List Candidate)
  text : Option String
deriving DecidableEq, Repr

/-- Model of `response.candidates?.[0]?.content?.parts?.find(part => part.inlineData)`,
followed by `?.inlineData` (geminiService.ts lines 40 and 42). -/
def firstCandidateImagePart (response : GenContentResponse) : Option InlineData :=
  ((((response.candidates.bind List.head?).bind (·.content)).bind (·.parts)).bind
    (fun parts => parts.find? (fun part => part.inlineData.isSome))).bind (·.inlineData)

/-- Model of `handleImageEditApiResponse` (geminiService.ts lines 29-60): throwing is
modelled as returning `.error`. -/
def handleImageEditApiResponse (response : GenContentResponse) (context : String) :
    Except Thrown String :=
  if jsTruthy (response.promptFeedback.bind (·.blockReason)) then
    .error (.errorObj ("Request was blocked. Reason: "
      ++ jsOrEmpty (response.promptFeedback.bind (·.blockReason)) ++ ". "
      ++ jsOrEmpty (response.promptFeedback.bind (·.blockReasonMessage))))
  else
    match firstCandidateImagePart response with
    | some idata => .ok ("data:" ++ idata.mimeType ++ ";base64," ++ idata.data)
    | none =>
      let finishReason := (response.candidates.bind List.head?).bind (·.finishReason)
      if jsTruthy finishReason ∧ finishReason ≠ some "STOP" then
        .error (.errorObj ("Image generation for " ++ context
          ++ " stopped unexpectedly. Reason: " ++ jsOrEmpty finishReason
          ++ ". This often relates to safety settings."))
      else
        let textFeedback := response.text.map String.trim
        .error (.errorObj ("The AI model did not return an image for the " ++ context ++ ". "
          ++ (if jsTruthy textFeedback then "Feedback: \"" ++ jsOrEmpty textFeedback ++ "\""
              else "No additional feedback was provided.")))

/-! ### generateTattooDesign / searchReferenceImages -/

structure GeneratedImageData where
  imageBytes : String
  mimeType : String
deriving DecidableEq, Repr

structure GeneratedImage where
  image : GeneratedImageData
deriving DecidableEq, Repr

structure GenImagesResponse where
  generatedImages : Option (List GeneratedImage)
deriving DecidableEq, Repr

/-- Model of `generateTattooDesign` (geminiService.ts lines 62-109), as a function of the
outcome of the `ai.models.generateImages` call.  The whole body is inside
`try`, so both API failures and the internal `no images` throw are rewrapped
by the catch block. -/
def generateTattooDesign (apiResult : Except Thrown GenImagesResponse) :
    Except Thrown (List String) :=
  match apiResult with
  | .error (.errorObj msg) =>
      .error (.errorObj ("Failed to generate tattoo designs. " ++ msg))
  | .error .nonError =>
      .error (.errorObj "An unknown error occurred while generating tattoo designs.")
  | .ok response =>
      match response.generatedImages with
      | none =>
          .error (.errorObj "Failed to generate tattoo designs. The AI did not return any images.")
      | some [] =>
          .error (.errorObj "Failed to generate tattoo designs. The AI did not return any images.")
      | some imgs =>
          .ok (imgs.map (fun img =>
            "data:" ++ img.image.mimeType ++ ";base64," ++ img.image.imageBytes))

/-- Model of `searchReferenceImages` (geminiService.ts lines 111-133). -/
def searchReferenceImages (apiResult : Except Thrown GenImagesResponse) :
    Except Thrown (List String) :=
  match apiResult with
  | .error (.errorObj msg) =>
      .error (.errorObj ("Failed to find reference images. " ++ msg))
  | .error .nonError =>
      .error (.errorObj "Failed to find reference images. ")
  | .ok response =>
      match response.generatedImages with
      | none =>
          .error (.errorObj
            "Failed to find reference images. The AI did not return any reference images.")
      | some [] =>
          .error (.errorObj
            "Failed to find reference images. The AI did not return any reference images.")
      | some imgs =>
          .ok (imgs.map (fun img =>
            "data:" ++ img.image.mimeType ++ ";base64," ++ img.image.imageBytes))

/-! ### describeImageStyle / blendVirtualTattoo / generateTattooStencil

None of these three functions has a try/catch around its API call: a failure
of the awaited call propagates out of the function unchanged. -/

structure TextResponse where
  text : String
deriving DecidableEq, Repr

/-- Model of `describeImageStyle` (geminiService.ts lines 135-150): no try/catch — an
API failure propagates as-is. -/
def describeImageStyle (apiResult : Except Thrown TextResponse) : Except Thrown String :=
  match apiResult with
  | .error e => .error e
  | .ok response => .ok response.text.trim

/-- Model of `blendVirtualTattoo` (geminiService.ts lines 152-188): no try/catch — an
API failure propagates as-is; a successful response goes through
`handleImageEditApiResponse`. -/
def blendVirtualTattoo (apiResult : Except Thrown GenContentResponse) : Except Thrown String :=
  match apiResult with
  | .error e => .error e
  | .ok response => handleImageEditApiResponse response "virtual tattoo blending"

/-- Model of `generateTattooStencil` (geminiService.ts lines 190-220): no try/catch — an
API failure propagates as-is. -/
def generateTattooStencil (apiResult : Except Thrown GenContentResponse) : Except Thrown String :=
  match apiResult with
  | .error e => .error e
  | .ok response => handleImageEditApiResponse response "tattoo stencil generation"

/-! ### findArtists -/

/-- A parsed JSON value, the result of the browser's `JSON.parse`.  Numbers are
carried as rationals; nothing in the repository computes with them. -/
inductive JsonVal where
  | null
  | bool (b : Bool)
  | num (q : Rat)
  | str (s : String)
  | arr (xs : List JsonVal)
  | obj (fields : List (String × JsonVal))

/-- Model of `text.replace(/^` ++ "```" ++ `json|` ++ "```" ++ `$/g, '').trim()`
(geminiService.ts line 294): with the `g` flag and unanchored scanning this
removes a leading "```json" and a trailing "```" (each at most once, the
anchors `^`/`$` match only at the string ends), then trims. -/
def stripJsonFences (s : String) : String :=
  let s1 := if s.startsWith "```json" then s.drop 7 else s
  let s2 := if s1.endsWith "```" then s1.dropRight 3 else s1
  s2.trim

/-- The truthiness filter `web?.uri && web?.title` (geminiService.ts line 304). -/
def webTruthy (web : WebSource) : Bool :=
  jsTruthy web.uri && jsTruthy web.title

/-- The `reduce` accumulator of geminiService.ts lines 305-310: push `current`
unless an element with the same `uri` is already in `acc`. -/
def dedupSourcesAcc : List WebSource → List WebSource → List WebSource
  | acc, [] => acc
  | acc, current :: rest =>
      dedupSourcesAcc
        (if acc.any (fun item => item.uri = current.uri) then acc else acc ++ [current])
        rest

/-- Lines 301-310: map the chunks to their `web` entries, keep the truthy ones,
deduplicate by `uri` keeping first occurrences. -/
def sourcesOfChunks (groundingChunks : List GroundingChunk) : List WebSource :=
  dedupSourcesAcc [] ((groundingChunks.filterMap (·.web)).filter webTruthy)

/-- The response slice read by `findArtists`: `response.text` plus
`response.candidates?.[0]?.groundingMetadata?.groundingChunks`. -/
structure FindArtistsResponse where
  text : String
  candidates : Option (List Candidate)
deriving DecidableEq, Repr

/-- The value returned by `findArtists`: `artists` is whatever `JSON.parse`
produced — the code performs no validation of its shape — and `sources` is the
deduplicated grounding list. -/
structure ArtistSearchResult where
  artists : JsonVal
  sources : List WebSource

/-- Model of `findArtists` (geminiService.ts lines 247-318) as a function of the outcome
of the `ai.models.generateContent` call and of the browser's `JSON.parse`
(passed as the oracle `parse`; `parse s = none` models a `JSON.parse` throw).
The inner catch turns a parse failure into the could-not-be-understood
`Error`, and the outer catch wraps every `Error` thrown inside the `try`
(including API failures) as `Failed to find artists. ` ++ message. -/
def findArtists (parse : String → Option JsonVal)
    (apiResult : Except Thrown FindArtistsResponse) : Except Thrown ArtistSearchResult :=
  match apiResult with
  | .error (.errorObj msg) => .error (.errorObj ("Failed to find artists. " ++ msg))
  | .error .nonError => .error (.errorObj "Failed to find artists. ")
  | .ok response =>
      let text := response.text.trim
      let jsonString := stripJsonFences text
      match parse jsonString with
      | none =>
          .error (.errorObj ("Failed to find artists. "
            ++ "The AI returned a response that could not be understood. Please try a different search."))
      | some artists =>
          let groundingChunks :=
            ((((response.candidates.bind List.head?).bind (·.groundingMetadata)).bind
              (·.groundingChunks)).getD [])
          .ok { artists := artists, sources := sourcesOfChunks groundingChunks }

/-! ### Artist records and generateArtistResponse -/

/-- The `Artist` interface (geminiService.ts lines 223-235).  `latitude` and
`longitude` are JS numbers; they are only stored and displayed, never computed
with, and are carried as rationals. -/
structure Artist where
  name : String
  description : String
  address : String
  website : Option String := none
  specialties : Option (List String) := none
  availability : Option String := none
  portfolioUrl : Option String := none
  portfolio : Option (List String) := none
  latitude : Option Rat := none
  longitude : Option Rat := none
  styleMatch : Option Bool := none
deriving DecidableEq, Repr

/-- One entry of the `conversationHistory` argument of `generateArtistResponse`
(`{ sender: string; text: string }`). -/
structure HistoryMsg where
  sender : String
  text : String
deriving DecidableEq, Repr

/-- One entry of the mapped `history` list (role plus text parts). -/
structure ChatTurn where
  role : String
  parts : List String
deriving DecidableEq, Repr

/-- The data `generateArtistResponse` hands to the chat API: `ai.chats.create`
receives `{ model, config: { systemInstruction } }` and `chat.sendMessage`
receives `{ message: userMessage }` — and nothing else. -/
structure ChatRequest where
  model : String
  systemInstruction : String
  message : String
deriving DecidableEq, Repr

/-- The system instruction template of geminiService.ts lines 336-347. -/
def artistSystemInstruction (artist : Artist) : String :=
  "\n        You are roleplaying as " ++ artist.name ++ ", a professional tattoo artist.\n"
  ++ "        Your persona: You are helpful, professional, and passionate about your craft.\n"
  ++ "        Your specialties are: "
  ++ (let joined := String.intercalate ", " ((artist.specialties).getD [])
      if joined = "" then "various styles" else joined)
  ++ ".\n        Your availability is: "
  ++ (let availability := jsOrEmpty artist.availability
      if availability = "" then "not specified" else availability)
  ++ ".\n        \n        Instructions:\n"
  ++ "        - Respond to the user's message in a conversational and helpful way, staying in character as the artist.\n"
  ++ "        - Keep your responses concise and to the point.\n"
  ++ "        - You can discuss tattoo ideas, placement, pricing concepts (give estimates, not firm quotes), and scheduling.\n"
  ++ "        - Do not break character. Do not mention that you are an AI.\n    "

/-- Model of `generateArtistResponse` (geminiService.ts lines 320-357), as a function of
the chat API, modelled as an oracle from the issued `ChatRequest` to the
outcome.  The function maps `conversationHistory` into `history` and pops its
last element (lines 328-334) — but `history` is never passed to the created
chat, so the request depends only on `artist`, `userMessage` and `model`. -/
def generateArtistResponse (api : ChatRequest → Except Thrown TextResponse)
    (conversationHistory : List HistoryMsg) (artist : Artist)
    (userMessage : String) (model : String) : Except Thrown String :=
  let history : List ChatTurn :=
    (conversationHistory.map (fun m =>
      { role := if m.sender = "user" then "user" else "model", parts := [m.text] })).dropLast
  let _ := history
  match api { model := model,
              systemInstruction := artistSystemInstruction artist,
              message := userMessage } with
  | .ok response => .ok response.text.trim
  | .error _ => .error (.errorObj "Failed to get a response from the artist AI.")

/-! ### Data-URL parsing (`dataURLtoFile` in App.tsx, `fileToPart` in
geminiService.ts)

These helpers are modelled over `List Char` (a JS string as a character
sequence), since their behaviour is pure character processing. -/

/-- Model of `s.split(',')`: split at every comma, keeping empty pieces. -/
def jsSplitComma : List Char → List (List Char)
  | [] => [[]]
  | c :: rest =>
      if c = ',' then [] :: jsSplitComma rest
      else
        match jsSplitComma rest with
        | [] => [[c]]
        | piece :: pieces => (c :: piece) :: pieces

/-- A JavaScript LineTerminator, which `.` in a regex does not match:
LF, CR, LINE SEPARATOR (U+2028) and PARAGRAPH SEPARATOR (U+2029). -/
def isJsLineTerminator (c : Char) : Prop :=
  c = '\n' ∨ c = '\r' ∨ c = '\u2028' ∨ c = '\u2029'

instance (c : Char) : Decidable (isJsLineTerminator c) := by
  unfold isJsLineTerminator; infer_instance

/-- The lazy group of `/:(.*?);/` once a `:` has been passed: the characters up
to the first `;`, failing if a line terminator (which `.` does not match)
comes first or there is no `;`. -/
def scanToSemi : List Char → Option (List Char)
  | [] => none
  | c :: rest =>
      if c = ';' then some []
      else if isJsLineTerminator c then none
      else (scanToSemi rest).map (fun g => c :: g)

/-- Model of `s.match(/:(.*?);/)`: the regex engine tries each start position left to
right; a match starts at a `:` from which a `;` is reachable without crossing
a line terminator, and the group is the (lazily minimal) text between. -/
def matchColonSemi : List Char → Option (List Char)
  | [] => none
  | c :: rest =>
      if c = ':' then
        match scanToSemi rest with
        | some g => some g
        | none => matchColonSemi rest
      else matchColonSemi rest

/-- The value of one base64 alphabet character. -/
def b64Index (c : Char) : Option Nat :=
  if 'A' ≤ c ∧ c ≤ 'Z' then some (c.toNat - 'A'.toNat)
  else if 'a' ≤ c ∧ c ≤ 'z' then some (c.toNat - 'a'.toNat + 26)
  else if '0' ≤ c ∧ c ≤ '9' then some (c.toNat - '0'.toNat + 52)
  else if c = '+' then some 62
  else if c = '/' then some 63
  else none

/-- Reassemble decoded sextets into bytes (6-bit groups into 8-bit bytes; a
final group of one sextet is an error, of two or three sextets yields one or
two bytes with the low filler bits discarded). -/
def bytesOfSextets : List Nat → Option (List Nat)
  | [] => some []
  | [_] => none
  | [a, b] => some [a * 4 + b / 16]
  | [a, b, c] => some [a * 4 + b / 16, (b % 16) * 16 + c / 4]
  | a :: b :: c :: d :: rest =>
      (bytesOfSextets rest).map
        (fun bs => (a * 4 + b / 16) :: ((b % 16) * 16 + c / 4) :: ((c % 4) * 64 + d) :: bs)

/-- An ASCII whitespace character (forgiving base64 removes these first). -/
def isB64Whitespace (c : Char) : Bool :=
  c = ' ' ∨ c = '\t' ∨ c = '\n' ∨ c = '\x0c' ∨ c = '\r'

/-- The browser's `atob` (forgiving base64 decode): strip ASCII whitespace,
strip up to two trailing `=` when the length is a multiple of four, reject any
other `=` and any character outside the alphabet, then decode; `none` models
the `InvalidCharacterError` throw. -/
def atob (s : List Char) : Option (List Nat) :=
  let s := s.filter (fun c => !isB64Whitespace c)
  let s :=
    if s.length % 4 = 0 then
      if s.drop (s.length - 2) = ['=', '='] then s.dropLast.dropLast
      else if s.drop (s.length - 1) = ['='] then s.dropLast
      else s
    else s
  if s.length % 4 = 1 then none
  else (s.mapM b64Index).bind bytesOfSextets

/-- The `File` value built by `dataURLtoFile`: name, MIME type, and the bytes
(`u8arr[n] = bstr.charCodeAt(n)` over the `atob` output). -/
structure JsFile where
  name : List Char
  type : List Char
  bytes : List Nat
deriving DecidableEq, Repr

/-- Model of `dataURLtoFile` (App.tsx lines 26-40).  Throws are modelled as `.error`
with the thrown `Error`'s message; an `atob` failure propagates the DOM
`InvalidCharacterError`. -/
def dataURLtoFile (dataurl : List Char) (filename : List Char) : Except String JsFile :=
  let arr := jsSplitComma dataurl
  if arr.length < 2 then .error "Invalid data URL"
  else
    match matchColonSemi (arr.headD []) with
    | none => .error "Could not parse MIME type from data URL"
    | some mime =>
        if mime = [] then .error "Could not parse MIME type from data URL"
        else
          match atob (arr.getD 1 []) with
          | none => .error "InvalidCharacterError"
          | some bytes => .ok { name := filename, type := mime, bytes := bytes }

/-- The inline-data part built by `fileToPart`. -/
structure InlinePart where
  mimeType : List Char
  data : List Char
deriving DecidableEq, Repr

/-- The parsing step of `fileToPart` (geminiService.ts lines 19-26): the same
split-and-regex treatment of the data URL produced by the `FileReader`, but
keeping the base64 text instead of decoding it. -/
def fileToPartParse (dataUrl : List Char) : Except String InlinePart :=
  let arr := jsSplitComma dataUrl
  if arr.length < 2 then .error "Invalid data URL"
  else
    match matchColonSemi (arr.headD []) with
    | none => .error "Could not parse MIME type from data URL"
    | some mime =>
        if mime = [] then .error "Could not parse MIME type from data URL"
        else .ok { mimeType := mime, data := arr.getD 1 [] }

/-- The data-URI construction used by the service layer
(`data:mime;base64,payload`). -/
def dataUriChars (mime payload : List Char) : List Char :=
  "data:".data ++ mime ++ ";base64,".data ++ payload

/-- A well-formed MIME type for the round-trip statement: nonempty and free of
the characters that the `split(',')` / `/:(.*?);/` parsing treats specially —
the separators and every JS line terminator (LF, CR, U+2028, U+2029). -/
def mimeTypeOk (mime : List Char) : Prop :=
  mime ≠ [] ∧ ∀ c ∈ mime, c ≠ ',' ∧ c ≠ ';' ∧ c ≠ ':' ∧ ¬ isJsLineTerminator c

instance (mime : List Char) : Decidable (mimeTypeOk mime) := by
  unfold mimeTypeOk; infer_instance

/-! ### The App data model (App.tsx, file `unnamed/part_001`) -/

/-- Model of `type AppStep = 'START' | 'DESIGN' | 'TRY_ON' | 'DONE' | 'FIND_ARTIST' | 'GALLERY'`. -/
inductive AppStep where
  | start
  | design
  | tryOn
  | done
  | findArtist
  | gallery
deriving DecidableEq, Repr

/-- Model of `Message.sender : 'user' | 'artist'`. -/
inductive Sender where
  | user
  | artist
deriving DecidableEq, Repr

def Sender.str : Sender → String
  | .user => "user"
  | .artist => "artist"

structure Message where
  sender : Sender
  text : String
  timestamp : String
deriving DecidableEq, Repr

/-- Model of `Project.contract.status`. -/
inductive ContractStatus where
  | pending
  | approved
  | inProgress
  | completed
deriving DecidableEq, Repr

def ContractStatus.str : ContractStatus → String
  | .pending => "Pending"
  | .approved => "Approved"
  | .inProgress => "In Progress"
  | .completed => "Completed"

structure Contract where
  status : ContractStatus
  price : String
  appointmentDate : String
deriving DecidableEq, Repr

/-- The `Project` interface (App.tsx lines 50-62). -/
structure Project where
  id : String
  designImage : String
  stencilImage : Option String := none
  artist : Artist
  savedAt : String
  conversation : List Message
  contract : Contract
deriving DecidableEq, Repr

/-! #### JSON serialisation (the browser's `JSON.stringify` on a `Project[]`)

`JSON.stringify` is a host function; it is modelled by a concrete encoder
(string escaping, `undefined` fields omitted).  The exact number formatting of
JS is abstracted by `toString` on rationals; no claim depends on it. -/

def jsonEscapeChar (c : Char) : String :=
  if c = '"' then "\\\""
  else if c = '\\' then "\\\\"
  else if c = '\n' then "\\n"
  else if c = '\r' then "\\r"
  else if c = '\t' then "\\t"
  else String.singleton c

def jsonEscape (s : String) : String := String.join (s.data.map jsonEscapeChar)

def jsonStr (s : String) : String := "\"" ++ jsonEscape s ++ "\""

/-- A JSON object from named fields; `none` fields (JS `undefined`) are
omitted, as `JSON.stringify` does. -/
def jsonObjOf (fields : List (Option (String × String))) : String :=
  "\x7b" ++ String.intercalate ","
    ((fields.filterMap id).map (fun f => jsonStr f.1 ++ ":" ++ f.2)) ++ "\x7d"

def jsonArrOf (items : List String) : String :=
  "[" ++ String.intercalate "," items ++ "]"

def jsonBool (b : Bool) : String := if b then "true" else "false"

def stringifyArtist (a : Artist) : String :=
  jsonObjOf
    [ some ("name", jsonStr a.name)
    , some ("description", jsonStr a.description)
    , some ("address", jsonStr a.address)
    , a.website.map (fun w => ("website", jsonStr w))
    , a.specialties.map (fun l => ("specialties", jsonArrOf (l.map jsonStr)))
    , a.availability.map (fun v => ("availability", jsonStr v))
    , a.portfolioUrl.map (fun v => ("portfolioUrl", jsonStr v))
    , a.portfolio.map (fun l => ("portfolio", jsonArrOf (l.map jsonStr)))
    , a.latitude.map (fun q => ("latitude", toString q))
    , a.longitude.map (fun q => ("longitude", toString q))
    , a.styleMatch.map (fun b => ("styleMatch", jsonBool b)) ]

def stringifyMessage (m : Message) : String :=
  jsonObjOf
    [ some ("sender", jsonStr m.sender.str)
    , some ("text", jsonStr m.text)
    , some ("timestamp", jsonStr m.timestamp) ]

def stringifyContract (c : Contract) : String :=
  jsonObjOf
    [ some ("status", jsonStr c.status.str)
    , some ("price", jsonStr c.price)
    , some ("appointmentDate", jsonStr c.appointmentDate) ]

def stringifyProject (p : Project) : String :=
  jsonObjOf
    [ some ("id", jsonStr p.id)
    , some ("designImage", jsonStr p.designImage)
    , p.stencilImage.map (fun s => ("stencilImage", jsonStr s))
    , some ("artist", stringifyArtist p.artist)
    , some ("savedAt", jsonStr p.savedAt)
    , some ("conversation", jsonArrOf (p.conversation.map stringifyMessage))
    , some ("contract", stringifyContract p.contract) ]

/-- Model of `JSON.stringify(projects)`. -/
def stringifyProjects (projects : List Project) : String :=
  jsonArrOf (projects.map stringifyProject)

/-! #### Browser local storage -/

/-- The browser's local storage: a key-value map. -/
abbrev Store := List (String × String)

/-- Model of `localStorage.setItem`. -/
def setItem (store : Store) (k v : String) : Store :=
  (k, v) :: List.filter (fun e => !(e.1 = k)) store

/-- Model of `localStorage.getItem` (`none` = JS `null`). -/
def getItem (store : Store) (k : String) : Option String :=
  (List.find? (fun e => e.1 = k) store).map (·.2)

/-! #### The App component state and its handlers

Only the state that the claims touch is carried: the wizard flow fields, the
projects list and its persistence.  The artist-browsing fields (`artists`,
filters, map centre, booking modal) affect no claim and are omitted. -/

structure AppState where
  step : AppStep
  prompt : String
  generatedTattoos : List String
  selectedTattoo : Option String
  tryOnImage : Option String
  finalImage : Option String
  projects : List Project
  viewingProject : Option Project
  blendPending : Bool
  storage : Store
deriving DecidableEq, Repr

/-- Wall-clock inputs of `handleSaveProject`: `Date.now()` and
`new Date().toISOString()`. -/
structure TimeEnv where
  nowMs : Nat
  isoNow : String
deriving DecidableEq, Repr

/-- Model of `handleSaveProject` (App.tsx lines 354-366). -/
def handleSaveProject (st : AppState) (env : TimeEnv) (artist : Artist) (design : String) :
    AppState :=
  let newProject : Project :=
    { id := "proj_" ++ toString env.nowMs
    , designImage := design
    , artist := artist
    , savedAt := env.isoNow
    , conversation := []
    , contract := { status := .pending, price := "", appointmentDate := "" } }
  let updatedProjects := st.projects ++ [newProject]
  { st with
    projects := updatedProjects
    storage := setItem st.storage "inkgenius_projects" (stringifyProjects updatedProjects) }

/-- A `Partial<Project>` argument of `updateProject`: every field optional. -/
structure ProjectUpdates where
  id : Option String := none
  designImage : Option String := none
  stencilImage : Option String := none
  artist : Option Artist := none
  savedAt : Option String := none
  conversation : Option (List Message) := none
  contract : Option Contract := none
deriving DecidableEq, Repr

/-- The object spread `{ ...p, ...updates }`. -/
def applyUpdates (p : Project) (u : ProjectUpdates) : Project :=
  { id := u.id.getD p.id
  , designImage := u.designImage.getD p.designImage
  , stencilImage := match u.stencilImage with | some s => some s | none => p.stencilImage
  , artist := u.artist.getD p.artist
  , savedAt := u.savedAt.getD p.savedAt
  , conversation := u.conversation.getD p.conversation
  , contract := u.contract.getD p.contract }

/-- Model of `updateProject` (App.tsx lines 288-297).  Note that the source applies the
updates to `viewingProject` whenever one is open, without comparing its id. -/
def updateProject (st : AppState) (projectId : String) (updates : ProjectUpdates) : AppState :=
  let updatedProjects :=
    st.projects.map (fun p => if p.id = projectId then applyUpdates p updates else p)
  { st with
    projects := updatedProjects
    viewingProject := st.viewingProject.map (fun prev => applyUpdates prev updates)
    storage := setItem st.storage "inkgenius_projects" (stringifyProjects updatedProjects) }

/-- The delete-project handler (App.tsx lines 764-772): only reachable from the
project modal, i.e. with a `viewingProject` open and after the user confirms. -/
def deleteProjectHandler (st : AppState) : AppState :=
  match st.viewingProject with
  | none => st
  | some viewingProject =>
      let updatedProjects := st.projects.filter (fun p => !(p.id = viewingProject.id))
      { st with
        projects := updatedProjects
        storage := setItem st.storage "inkgenius_projects" (stringifyProjects updatedProjects)
        viewingProject := none }

/-- The gallery badge in the header (`galleryItemCount={projects.length}`,
Header.tsx). -/
def galleryItemCount (st : AppState) : Nat := st.projects.length

/-! #### The wizard as an event system

Each constructor is one user interaction or mutation-`onSuccess` callback of
`App.tsx`.  Interactions whose triggering element is only rendered in a given
step are guarded by that step (a guard failure leaves the state unchanged:
the element is not on screen).  Mutation successes (`generateSuccess`,
`blendSuccess`, `stencilSuccess`, `artistReplySuccess`) are not step-guarded:
react-query delivers them whenever the earlier request resolves, which may be
after the user has navigated elsewhere — but a blend can only resolve if one
was started (`blendPending`). -/
inductive Event where
  | startDesign
  | startFindArtist
  | setPrompt (text : String)
  | generateSuccess (imgs : List String)
  | selectTattoo (t : String)
  | uploadTryOn (img : String)
  | blendStart
  | blendSuccess (img : String)
  | doneFindArtist
  | showGallery
  | reset
  | saveProject (env : TimeEnv) (artist : Artist) (design : String)
  | viewProject (p : Project)
  | closeProject
  | deleteProject
  | stencilSuccess (data : String)
  | sendUserMessage (text timestamp : String)
  | artistReplySuccess (text timestamp : String)
deriving DecidableEq, Repr

/-- One step of the App: the `setAppStep`/`setXxx` effects of each handler of
`App.tsx`. -/
def applyEvent (st : AppState) : Event → AppState
  | .startDesign =>
      -- StartScreen `onStart` (rendered only when `appStep === 'START'`)
      if st.step = .start then { st with step := .design } else st
  | .startFindArtist =>
      -- StartScreen `onStartFindArtist`: clears the design, then
      -- `handleFindArtists(true)` sets the step
      if st.step = .start then
        { st with finalImage := none, selectedTattoo := none, step := .findArtist }
      else st
  | .setPrompt text =>
      if st.step = .design then { st with prompt := text } else st
  | .generateSuccess imgs =>
      { st with generatedTattoos := imgs }
  | .selectTattoo t =>
      -- `handleSelectTattoo`, from the generated-designs grid of the DESIGN step
      if st.step = .design ∧ t ∈ st.generatedTattoos then
        { st with selectedTattoo := some t, step := .tryOn }
      else st
  | .uploadTryOn img =>
      if st.step = .tryOn then { st with tryOnImage := some img } else st
  | .blendStart =>
      -- `handleBlendTattoo`: the Blend button exists only on the TRY_ON canvas
      if st.step = .tryOn ∧ st.selectedTattoo.isSome ∧ st.tryOnImage.isSome then
        { st with blendPending := true }
      else st
  | .blendSuccess img =>
      -- `onSuccess: (data) => { setFinalImage(data); setAppStep('DONE'); }`
      if st.blendPending then
        { st with finalImage := some img, step := .done, blendPending := false }
      else st
  | .doneFindArtist =>
      -- the `Find an Artist` button of the DONE screen
      if st.step = .done then { st with step := .findArtist } else st
  | .showGallery =>
      { st with step := .gallery }
  | .reset =>
      { st with step := .start, prompt := "", generatedTattoos := [],
                selectedTattoo := none, tryOnImage := none, finalImage := none }
  | .saveProject env artist design =>
      handleSaveProject st env artist design
  | .viewProject p =>
      if st.step = .gallery ∧ p ∈ st.projects then { st with viewingProject := some p } else st
  | .closeProject =>
      { st with viewingProject := none }
  | .deleteProject =>
      deleteProjectHandler st
  | .stencilSuccess data =>
      match st.viewingProject with
      | some viewingProject => updateProject st viewingProject.id { stencilImage := some data }
      | none => st
  | .sendUserMessage text timestamp =>
      match st.viewingProject with
      | some viewingProject =>
          updateProject st viewingProject.id
            { conversation := some (viewingProject.conversation
                ++ [{ sender := .user, text := text, timestamp := timestamp }]) }
      | none => st
  | .artistReplySuccess text timestamp =>
      match st.viewingProject with
      | some viewingProject =>
          updateProject st viewingProject.id
            { conversation := some (viewingProject.conversation
                ++ [{ sender := .artist, text := text, timestamp := timestamp }]) }
      | none => st

/-- The initial component state (`useState` initialisers). -/
def initState : AppState :=
  { step := .start
  , prompt := ""
  , generatedTattoos := []
  , selectedTattoo := none
  , tryOnImage := none
  , finalImage := none
  , projects := []
  , viewingProject := none
  , blendPending := false
  , storage := [] }

/-- Run a sequence of events from a state. -/
def runEvents (st : AppState) : List Event → AppState
  | [] => st
  | e :: rest => runEvents (applyEvent st e) rest

/-! ### Definitions used only to state claims (from the claims' own words) -/

/-- Whether the response is blocked, in the code's truthiness sense
(`response.promptFeedback?.blockReason` truthy). -/
def responseBlocked (response : GenContentResponse) : Bool :=
  jsTruthy (response.promptFeedback.bind (·.blockReason))

/-- Stated from the claim's words: `some candidate part contains inlineData` —
any part of ANY candidate carries inline data.  (The code inspects only
`candidates[0]`; this definition exists to exhibit the difference.) -/
def responseHasImagePart (response : GenContentResponse) : Bool :=
  (response.candidates.getD []).any (fun c =>
    ((c.content.bind (·.parts)).getD []).any (fun part => part.inlineData.isSome))

/-- The designing-path ordering conditions of the flow claim: `TRY_ON` only
with a selected tattoo, `DONE` only with a final image. -/
def designFlowInvariant (st : AppState) : Prop :=
  (st.step = .tryOn → st.selectedTattoo.isSome = true) ∧
  (st.step = .done → st.finalImage.isSome = true)

/-- A concrete artist record (the `Unassigned` placeholder the app saves
designs under). -/
def artistUnassigned : Artist :=
  { name := "Unassigned", description := "", address := "" }

/-- A concrete response whose image part sits in the second candidate while the
first candidate has none. -/
def respSecondCandidateImage : GenContentResponse :=
  { promptFeedback := none
  , candidates := some
      [ { content := some { parts := some [] }, finishReason := none, groundingMetadata := none }
      , { content := some
            { parts := some
                [ { inlineData := some { mimeType := "image/png", data := "AAAA" }, text := none } ] }
        , finishReason := none, groundingMetadata := none } ]
  , text := none }

/-- A concrete response whose first candidate carries an image part. -/
def respFirstCandidateImage : GenContentResponse :=
  { promptFeedback := none
  , candidates := some
      [ { content := some
            { parts := some
                [ { inlineData := some { mimeType := "image/png", data := "AAAA" }, text := none } ] }
        , finishReason := none, groundingMetadata := none } ]
  , text := none }

/-- A concrete grounding-chunk list with a duplicate uri, a missing title and
a missing web entry, used in witnesses. -/
def chunksExample : List GroundingChunk :=
  [ { web := some { uri := some "https://a", title := some "A" } }
  , { web := some { uri := some "https://a", title := some "A2" } }
  , { web := some { uri := some "https://b", title := none } }
  , { web := none }
  , { web := some { uri := some "https://c", title := some "C" } } ]

/-- A concrete saved project, used in witnesses. -/
def projectExample : Project :=
  { id := "proj_0"
  , designImage := "d"
  , artist := artistUnassigned
  , savedAt := "t"
  , conversation := []
  , contract := { status := .pending, price := "", appointmentDate := "" } }

/-- A concrete state with `projectExample` saved and open in the modal. -/
def stateViewingExample : AppState :=
  { initState with
    projects := [projectExample]
    viewingProject := some projectExample }

/-! ### Shared helper lemmas -/

theorem getItem_setItem_same (store : Store) (k v : String) :
    getItem (setItem store k v) k = some v := by
  simp [getItem, setItem]

theorem find?_filter_ne (store : Store) (key k : String) (h : k ≠ key) :
    List.find? (fun e => e.1 = k) (List.filter (fun e => !(e.1 = key)) store)
      = List.find? (fun e => e.1 = k) store := by
  have hk1 : (decide (key = k)) = false := by
    simp only [decide_eq_false_iff_not]
    exact fun e => h e.symm
  have hk2 : (decide (k = key)) = false := by
    simp only [decide_eq_false_iff_not]
    exact h
  induction store with
  | nil => rfl
  | cons a rest ih =>
      by_cases ha : a.1 = key
      · have hak : (decide (a.1 = k)) = false := by
          simp only [decide_eq_false_iff_not, ha]
          exact fun e => h e.symm
        simp [List.filter, ha, List.find?, hak, hk1, hk2, ih]
      · by_cases hak : a.1 = k
        · simp [List.filter, List.find?, ha, hak, hk1, hk2]
        · simp [List.filter, List.find?, ha, hak, hk1, hk2, ih]

theorem getItem_setItem_other (store : Store) (key v k : String) (h : k ≠ key) :
    getItem (setItem store key v) k = getItem store k := by
  have hk : (decide (key = k)) = false := by
    simp; exact fun hk => h hk.symm
  simp [getItem, setItem, List.find?, hk, find?_filter_ne store key k h]

/-! ### Claim theorems -/

/-- C1, counterexample: `describeImageStyle` has no try/catch, so a failure of
the hosted API call escapes the function unchanged — here even as a thrown
non-`Error` value, so certainly not re-thrown as a generic `Error` with a
human-readable message. -/
theorem describeImageStyle_failure_escapes_unwrapped :
    describeImageStyle (Except.error Thrown.nonError) = Except.error Thrown.nonError ∧
    Thrown.isErrorObj Thrown.nonError = false :=
  ⟨rfl, rfl⟩

/-- C1 (amended): `generateTattooDesign`, `searchReferenceImages`,
`findArtists` and `generateArtistResponse` catch every hosted-API failure and
re-throw it as a generic `Error` with a human-readable message, while
`describeImageStyle`, `blendVirtualTattoo` and `generateTattooStencil` let an
API-call failure escape unchanged. -/
theorem serviceFunctions_apiFailureHandling :
    (∀ msg, generateTattooDesign (Except.error (Thrown.errorObj msg)) =
      Except.error (Thrown.errorObj ("Failed to generate tattoo designs. " ++ msg))) ∧
    (generateTattooDesign (Except.error Thrown.nonError) =
      Except.error (Thrown.errorObj "An unknown error occurred while generating tattoo designs.")) ∧
    (∀ msg, searchReferenceImages (Except.error (Thrown.errorObj msg)) =
      Except.error (Thrown.errorObj ("Failed to find reference images. " ++ msg))) ∧
    (searchReferenceImages (Except.error Thrown.nonError) =
      Except.error (Thrown.errorObj "Failed to find reference images. ")) ∧
    (∀ parse msg, findArtists parse (Except.error (Thrown.errorObj msg)) =
      Except.error (Thrown.errorObj ("Failed to find artists. " ++ msg))) ∧
    (∀ parse, findArtists parse (Except.error Thrown.nonError) =
      Except.error (Thrown.errorObj "Failed to find artists. ")) ∧
    (∀ e conversationHistory artist userMessage model,
      generateArtistResponse (fun _ => Except.error e) conversationHistory artist userMessage model =
        Except.error (Thrown.errorObj "Failed to get a response from the artist AI.")) ∧
    (∀ e, describeImageStyle (Except.error e) = Except.error e) ∧
    (∀ e, blendVirtualTattoo (Except.error e) = Except.error e) ∧
    (∀ e, generateTattooStencil (Except.error e) = Except.error e) :=
  ⟨fun _ => rfl, rfl, fun _ => rfl, rfl, fun _ _ => rfl, fun _ => rfl,
   fun _ _ _ _ _ => rfl, fun _ => rfl, fun _ => rfl, fun _ => rfl⟩

/-- C8: the reply of `generateArtistResponse` is independent of the
conversation history — the mapped-and-popped `history` is never passed to the
created chat, so for any two histories and the same chat API, artist, message
and model, the outcomes coincide. -/
theorem generateArtistResponse_history_independent :
    ∀ (api : ChatRequest → Except Thrown TextResponse)
      (h1 h2 : List HistoryMsg) (artist : Artist) (userMessage model : String),
      generateArtistResponse api h1 artist userMessage model =
        generateArtistResponse api h2 artist userMessage model :=
  fun _ _ _ _ _ _ => rfl

/-- C3: `handleSaveProject` appends exactly one new `Project` — design image as
given, empty conversation, contract `Pending` with empty price and date —
leaving the previously stored projects unchanged, and the header gallery badge
(`projects.length`) grows by exactly one. -/
theorem handleSaveProject_appends_one :
    ∀ (st : AppState) (env : TimeEnv) (artist : Artist) (design : String),
      (handleSaveProject st env artist design).projects =
        st.projects ++
          [{ id := "proj_" ++ toString env.nowMs
           , designImage := design
           , stencilImage := none
           , artist := artist
           , savedAt := env.isoNow
           , conversation := []
           , contract := { status := .pending, price := "", appointmentDate := "" } }] ∧
      galleryItemCount (handleSaveProject st env artist design) = galleryItemCount st + 1 := by
  intro st env artist design
  refine ⟨rfl, ?_⟩
  simp [handleSaveProject, galleryItemCount]

/-- C5: `findArtists` parses on a best-effort basis: the model text is trimmed,
stripped of a leading three-backtick-json fence and a trailing three-backtick
fence, and handed to `JSON.parse`; a parse failure becomes an `Error` saying
the AI's response could not be understood, and a parse success is returned as
the `artists` field exactly as parsed, with no validation of its shape. -/
theorem findArtists_bestEffort_parse :
    ∀ (parse : String → Option JsonVal) (response : FindArtistsResponse),
      (parse (stripJsonFences response.text.trim) = none →
        findArtists parse (Except.ok response) =
          Except.error (Thrown.errorObj
            ("Failed to find artists. The AI returned a response that could not be understood. Please try a different search."))) ∧
      (∀ v, parse (stripJsonFences response.text.trim) = some v →
        findArtists parse (Except.ok response) =
          Except.ok
            { artists := v
            , sources := sourcesOfChunks
                ((((response.candidates.bind List.head?).bind (·.groundingMetadata)).bind
                  (·.groundingChunks)).getD []) }) := by
  intro parse response
  constructor
  · intro h
    simp [findArtists, h]
  · intro v h
    simp [findArtists, h]

/-- C5, witness. -/
theorem findArtists_bestEffort_parse_witness :
    findArtists (fun _ => none) (Except.ok { text := "", candidates := none }) =
      Except.error (Thrown.errorObj
        ("Failed to find artists. The AI returned a response that could not be understood. Please try a different search.")) ∧
    findArtists (fun _ => some JsonVal.null) (Except.ok { text := "", candidates := none }) =
      Except.ok { artists := JsonVal.null, sources := [] } :=
  ⟨(findArtists_bestEffort_parse (fun _ => none) { text := "", candidates := none }).1 rfl,
   (findArtists_bestEffort_parse (fun _ => some JsonVal.null)
     { text := "", candidates := none }).2 JsonVal.null rfl⟩

/-- C2: after each projects-mutating operation (`handleSaveProject`,
`updateProject`, the delete handler) the local-storage entry under
`inkgenius_projects` equals `JSON.stringify` of the updated in-memory projects
array, and no operation of the program writes any other local-storage key. -/
theorem localStorage_sync :
    ∀ (st : AppState) (env : TimeEnv) (artist : Artist) (design : String)
      (projectId : String) (updates : ProjectUpdates),
      getItem (handleSaveProject st env artist design).storage "inkgenius_projects" =
        some (stringifyProjects (handleSaveProject st env artist design).projects) ∧
      getItem (updateProject st projectId updates).storage "inkgenius_projects" =
        some (stringifyProjects (updateProject st projectId updates).projects) ∧
      (st.viewingProject.isSome = true →
        getItem (deleteProjectHandler st).storage "inkgenius_projects" =
          some (stringifyProjects (deleteProjectHandler st).projects)) ∧
      (∀ (e : Event) (k : String), k ≠ "inkgenius_projects" →
        getItem (applyEvent st e).storage k = getItem st.storage k) := by
  intro st env artist design projectId updates
  refine ⟨?_, ?_, ?_, ?_⟩
  · exact getItem_setItem_same _ _ _
  · exact getItem_setItem_same _ _ _
  · intro h
    match hv : st.viewingProject with
    | some vp => simp [deleteProjectHandler, hv, getItem_setItem_same]
    | none => simp [hv] at h
  · intro e k hk
    cases e with
    | startDesign => simp only [applyEvent]; split <;> rfl
    | startFindArtist => simp only [applyEvent]; split <;> rfl
    | setPrompt text => simp only [applyEvent]; split <;> rfl
    | generateSuccess imgs => rfl
    | selectTattoo t => simp only [applyEvent]; split <;> rfl
    | uploadTryOn img => simp only [applyEvent]; split <;> rfl
    | blendStart => simp only [applyEvent]; split <;> rfl
    | blendSuccess img => simp only [applyEvent]; split <;> rfl
    | doneFindArtist => simp only [applyEvent]; split <;> rfl
    | showGallery => rfl
    | reset => rfl
    | saveProject env2 artist2 design2 =>
        simp only [applyEvent, handleSaveProject]
        exact getItem_setItem_other _ _ _ _ hk
    | viewProject p => simp only [applyEvent]; split <;> rfl
    | closeProject => rfl
    | deleteProject =>
        simp only [applyEvent, deleteProjectHandler]
        match hv : st.viewingProject with
        | some vp => exact getItem_setItem_other _ _ _ _ hk
        | none => rfl
    | stencilSuccess data =>
        simp only [applyEvent]
        match hv : st.viewingProject with
        | some vp =>
            simp only [updateProject]
            exact getItem_setItem_other _ _ _ _ hk
        | none => rfl
    | sendUserMessage text timestamp =>
        simp only [applyEvent]
        match hv : st.viewingProject with
        | some vp =>
            simp only [updateProject]
            exact getItem_setItem_other _ _ _ _ hk
        | none => rfl
    | artistReplySuccess text timestamp =>
        simp only [applyEvent]
        match hv : st.viewingProject with
        | some vp =>
            simp only [updateProject]
            exact getItem_setItem_other _ _ _ _ hk
        | none => rfl

/-- C2, witness. -/
theorem localStorage_sync_witness :
    getItem (deleteProjectHandler stateViewingExample).storage "inkgenius_projects" =
      some (stringifyProjects (deleteProjectHandler stateViewingExample).projects) ∧
    getItem (applyEvent initState Event.reset).storage "someOtherKey" =
      getItem initState.storage "someOtherKey" := by
  constructor
  · exact (localStorage_sync stateViewingExample ⟨0, ""⟩ artistUnassigned "" "" {}).2.2.1 rfl
  · exact (localStorage_sync initState ⟨0, ""⟩ artistUnassigned "" "" {}).2.2.2
      Event.reset "someOtherKey" (by decide)

/-- Helper for C4: mapping the id-preserving update over the projects list does
not change the list of ids. -/
theorem map_id_of_update (l : List Project) (projectId : String) (updates : ProjectUpdates)
    (hid : updates.id = none) :
    (l.map (fun p => if p.id = projectId then applyUpdates p updates else p)).map
        (fun p => p.id) =
      l.map (fun p => p.id) := by
  induction l with
  | nil => rfl
  | cons a rest ih =>
      simp only [List.map_cons, ih]
      congr 1
      split
      · simp [applyUpdates, hid]
      · rfl

/-- C4, counterexample: two saves in the same millisecond (`Date.now()` equal)
produce two projects with the identical id `proj_0`, so id uniqueness is not
an invariant of `handleSaveProject`. -/
theorem projectIds_duplicate_same_millisecond :
    ((runEvents initState
        [Event.saveProject ⟨0, "t"⟩ artistUnassigned "d",
         Event.saveProject ⟨0, "t"⟩ artistUnassigned "d"]).projects.map (fun p => p.id)) =
      ["proj_0", "proj_0"] ∧
    ¬ (["proj_0", "proj_0"] : List String).Nodup := by
  constructor
  · rfl
  · decide

/-- C4 (amended): pairwise distinctness of project ids is preserved by
deletion unconditionally, by `updateProject` whenever the update does not set
the `id` field (as at every call site), and by `handleSaveProject` whenever
the id derived from the save's `Date.now()` timestamp is not already present —
two saves in the same millisecond violate it. -/
theorem projectIds_nodup_preservation :
    ∀ (st : AppState) (env : TimeEnv) (artist : Artist) (design : String)
      (projectId : String) (updates : ProjectUpdates),
      ((st.projects.map (fun p => p.id)).Nodup →
        ("proj_" ++ toString env.nowMs) ∉ st.projects.map (fun p => p.id) →
        ((handleSaveProject st env artist design).projects.map (fun p => p.id)).Nodup) ∧
      ((st.projects.map (fun p => p.id)).Nodup → updates.id = none →
        ((updateProject st projectId updates).projects.map (fun p => p.id)).Nodup) ∧
      ((st.projects.map (fun p => p.id)).Nodup →
        ((deleteProjectHandler st).projects.map (fun p => p.id)).Nodup) := by
  intro st env artist design projectId updates
  refine ⟨?_, ?_, ?_⟩
  · intro h hmem
    simp only [handleSaveProject, List.map_append, List.map_cons, List.map_nil]
    rw [List.nodup_append]
    exact ⟨h, List.nodup_singleton _, by
      intro a ha hb
      simp only [List.mem_singleton] at hb
      exact hmem (hb ▸ ha)⟩
  · intro h hid
    simp only [updateProject]
    rw [map_id_of_update st.projects projectId updates hid]
    exact h
  · intro h
    rcases hv : st.viewingProject with _ | vp
    · simpa [deleteProjectHandler, hv] using h
    · simp only [deleteProjectHandler, hv]
      exact List.Nodup.sublist (List.Sublist.map _ (List.filter_sublist _)) h

/-- C4, witness. -/
theorem projectIds_nodup_preservation_witness :
    ((handleSaveProject stateViewingExample ⟨1, "t1"⟩ artistUnassigned "d2").projects.map
        (fun p => p.id)).Nodup ∧
    ((updateProject stateViewingExample "proj_0" { stencilImage := some "s" }).projects.map
        (fun p => p.id)).Nodup ∧
    ((deleteProjectHandler stateViewingExample).projects.map (fun p => p.id)).Nodup :=
  ⟨(projectIds_nodup_preservation stateViewingExample ⟨1, "t1"⟩ artistUnassigned "d2"
      "proj_0" { stencilImage := some "s" }).1 (by decide) (by decide),
   (projectIds_nodup_preservation stateViewingExample ⟨1, "t1"⟩ artistUnassigned "d2"
      "proj_0" { stencilImage := some "s" }).2.1 (by decide) rfl,
   (projectIds_nodup_preservation stateViewingExample ⟨1, "t1"⟩ artistUnassigned "d2"
      "proj_0" { stencilImage := some "s" }).2.2 (by decide)⟩

/-- C6, counterexample: the code inspects only `candidates[0]`.  Here the
image part sits in the second candidate — the response is unblocked and some
candidate part contains `inlineData` — yet the function throws instead of
returning a data URI. -/
theorem handleImageEditApiResponse_ignores_later_candidates :
    responseBlocked respSecondCandidateImage = false ∧
    responseHasImagePart respSecondCandidateImage = true ∧
    handleImageEditApiResponse respSecondCandidateImage "virtual tattoo blending" =
      Except.error (Thrown.errorObj
        "The AI model did not return an image for the virtual tattoo blending. No additional feedback was provided.") :=
  ⟨rfl, rfl, rfl⟩

/-- C6 (amended): `handleImageEditApiResponse` throws on a prompt-feedback
block reason; otherwise, if some part of the FIRST candidate carries
`inlineData`, it returns the data URI built from the first such part;
otherwise it throws — mentioning the first candidate's finish reason when that
is truthy and differs from `STOP`, and the text feedback otherwise.  Hence it
returns a data-URI string iff the response is unblocked and its first
candidate contains an image part. -/
theorem handleImageEditApiResponse_characterisation :
    ∀ (response : GenContentResponse) (context : String),
      (responseBlocked response = true →
        handleImageEditApiResponse response context =
          Except.error (Thrown.errorObj ("Request was blocked. Reason: "
            ++ jsOrEmpty (response.promptFeedback.bind (·.blockReason)) ++ ". "
            ++ jsOrEmpty (response.promptFeedback.bind (·.blockReasonMessage))))) ∧
      (responseBlocked response = false →
        ∀ idata, firstCandidateImagePart response = some idata →
          handleImageEditApiResponse response context =
            Except.ok ("data:" ++ idata.mimeType ++ ";base64," ++ idata.data)) ∧
      (responseBlocked response = false →
        firstCandidateImagePart response = none →
        jsTruthy ((response.candidates.bind List.head?).bind (·.finishReason)) = true →
        (response.candidates.bind List.head?).bind (·.finishReason) ≠ some "STOP" →
        handleImageEditApiResponse response context =
          Except.error (Thrown.errorObj ("Image generation for " ++ context
            ++ " stopped unexpectedly. Reason: "
            ++ jsOrEmpty ((response.candidates.bind List.head?).bind (·.finishReason))
            ++ ". This often relates to safety settings."))) ∧
      (responseBlocked response = false →
        firstCandidateImagePart response = none →
        ¬ (jsTruthy ((response.candidates.bind List.head?).bind (·.finishReason)) = true ∧
            (response.candidates.bind List.head?).bind (·.finishReason) ≠ some "STOP") →
        handleImageEditApiResponse response context =
          Except.error (Thrown.errorObj ("The AI model did not return an image for the "
            ++ context ++ ". "
            ++ (if jsTruthy (response.text.map String.trim) = true
                then "Feedback: \"" ++ jsOrEmpty (response.text.map String.trim) ++ "\""
                else "No additional feedback was provided.")))) ∧
      ((∃ s, handleImageEditApiResponse response context = Except.ok s) ↔
        (responseBlocked response = false ∧ (firstCandidateImagePart response).isSome = true)) := by
  intro response context
  have hchar1 : responseBlocked response = true →
      handleImageEditApiResponse response context =
        Except.error (Thrown.errorObj ("Request was blocked. Reason: "
          ++ jsOrEmpty (response.promptFeedback.bind (·.blockReason)) ++ ". "
          ++ jsOrEmpty (response.promptFeedback.bind (·.blockReasonMessage)))) := by
    intro hb
    rw [responseBlocked] at hb
    simp only [handleImageEditApiResponse, hb, if_true]
  have hchar2 : responseBlocked response = false →
      ∀ idata, firstCandidateImagePart response = some idata →
        handleImageEditApiResponse response context =
          Except.ok ("data:" ++ idata.mimeType ++ ";base64," ++ idata.data) := by
    intro hb idata hi
    rw [responseBlocked] at hb
    simp only [handleImageEditApiResponse, hb, Bool.false_eq_true, if_false, hi]
  have hchar3 : responseBlocked response = false →
      firstCandidateImagePart response = none →
      jsTruthy ((response.candidates.bind List.head?).bind (·.finishReason)) = true →
      (response.candidates.bind List.head?).bind (·.finishReason) ≠ some "STOP" →
      handleImageEditApiResponse response context =
        Except.error (Thrown.errorObj ("Image generation for " ++ context
          ++ " stopped unexpectedly. Reason: "
          ++ jsOrEmpty ((response.candidates.bind List.head?).bind (·.finishReason))
          ++ ". This often relates to safety settings.")) := by
    intro hb hi hf hs
    rw [responseBlocked] at hb
    simp only [handleImageEditApiResponse, hb, Bool.false_eq_true, if_false, hi, hf, hs,
      ne_eq, not_false_eq_true, and_self, if_true]
  have hchar4 : responseBlocked response = false →
      firstCandidateImagePart response = none →
      ¬ (jsTruthy ((response.candidates.bind List.head?).bind (·.finishReason)) = true ∧
          (response.candidates.bind List.head?).bind (·.finishReason) ≠ some "STOP") →
      handleImageEditApiResponse response context =
        Except.error (Thrown.errorObj ("The AI model did not return an image for the "
          ++ context ++ ". "
          ++ (if jsTruthy (response.text.map String.trim) = true
              then "Feedback: \"" ++ jsOrEmpty (response.text.map String.trim) ++ "\""
              else "No additional feedback was provided."))) := by
    intro hb hi hn
    rw [responseBlocked] at hb
    simp only [handleImageEditApiResponse, hb, Bool.false_eq_true, if_false, hi]
    rw [if_neg hn]
  refine ⟨hchar1, hchar2, hchar3, hchar4, ?_⟩
  constructor
  · rintro ⟨s, hs⟩
    rcases hb : responseBlocked response with _ | _
    · rcases hi : firstCandidateImagePart response with _ | idata
      · by_cases hf : jsTruthy ((response.candidates.bind List.head?).bind (·.finishReason)) = true ∧
            (response.candidates.bind List.head?).bind (·.finishReason) ≠ some "STOP"
        · rw [hchar3 hb hi hf.1 hf.2] at hs
          exact absurd hs (by simp)
        · rw [hchar4 hb hi hf] at hs
          exact absurd hs (by simp)
      · exact ⟨rfl, by simp [hi]⟩
    · rw [hchar1 hb] at hs
      exact absurd hs (by simp)
  · rintro ⟨hb, hi⟩
    rcases hi2 : firstCandidateImagePart response with _ | idata
    · rw [hi2] at hi
      simp at hi
    · exact ⟨_, hchar2 hb idata hi2⟩

/-- C6, witness. -/
theorem handleImageEditApiResponse_characterisation_witness :
    handleImageEditApiResponse respFirstCandidateImage "tattoo stencil generation" =
      Except.ok "data:image/png;base64,AAAA" :=
  (handleImageEditApiResponse_characterisation respFirstCandidateImage
    "tattoo stencil generation").2.1 rfl { mimeType := "image/png", data := "AAAA" } rfl

/-- Helper for C10: the dedup accumulator only ever appends, and what it
appends is a sublist of its input. -/
theorem dedupSourcesAcc_append (l acc : List WebSource) :
    ∃ r, dedupSourcesAcc acc l = acc ++ r ∧ List.Sublist r l := by
  induction l generalizing acc with
  | nil => exact ⟨[], by simp [dedupSourcesAcc], List.nil_sublist _⟩
  | cons c rest ih =>
      by_cases hany : acc.any (fun item => item.uri = c.uri)
      · obtain ⟨r, hr, hs⟩ := ih acc
        exact ⟨r, by simp [dedupSourcesAcc, hany, hr], hs.cons c⟩
      · obtain ⟨r, hr, hs⟩ := ih (acc ++ [c])
        exact ⟨c :: r, by simp [dedupSourcesAcc, hany, hr], hs.cons₂ c⟩

/-- Helper for C10: the dedup accumulator keeps the uris pairwise distinct. -/
theorem dedupSourcesAcc_nodup (l acc : List WebSource)
    (h : (acc.map (fun w => w.uri)).Nodup) :
    ((dedupSourcesAcc acc l).map (fun w => w.uri)).Nodup := by
  induction l generalizing acc with
  | nil => simpa [dedupSourcesAcc] using h
  | cons c rest ih =>
      by_cases hany : acc.any (fun item => item.uri = c.uri)
      · simpa [dedupSourcesAcc, hany] using ih acc h
      · have hnd : ((acc ++ [c]).map (fun w => w.uri)).Nodup := by
          rw [List.map_append, List.nodup_append]
          refine ⟨h, List.nodup_singleton _, ?_⟩
          intro a ha hb
          simp only [List.map_cons, List.map_nil, List.mem_singleton] at hb
          subst hb
          simp only [List.any_eq_true, decide_eq_true_eq, not_exists, not_and] at hany
          obtain ⟨x, hx, hxe⟩ := List.mem_map.1 ha
          exact hany x hx (by rw [hxe])
        simpa [dedupSourcesAcc, hany] using ih (acc ++ [c]) hnd

/-- Helper for C10: every element of the dedup result that is not from the
accumulator is the first element of the input with its uri. -/
theorem dedupSourcesAcc_first (l acc : List WebSource) (w : WebSource)
    (hw : w ∈ dedupSourcesAcc acc l) :
    w ∈ acc ∨ (w ∈ l ∧ (∀ a ∈ acc, a.uri ≠ w.uri) ∧
      l.find? (fun x => x.uri == w.uri) = some w) := by
  induction l generalizing acc with
  | nil => left; simpa [dedupSourcesAcc] using hw
  | cons c rest ih =>
      by_cases hany : acc.any (fun item => item.uri = c.uri)
      · have hw2 : w ∈ dedupSourcesAcc acc rest := by
          simpa [dedupSourcesAcc, hany] using hw
        rcases ih acc hw2 with h | ⟨hmem, hnot, hfind⟩
        · exact Or.inl h
        · right
          have hcw : (c.uri == w.uri) = false := by
            rw [beq_eq_false_iff_ne]
            intro he
            simp only [List.any_eq_true, decide_eq_true_eq] at hany
            obtain ⟨a, ha, hae⟩ := hany
            exact hnot a ha (by rw [hae, he])
          exact ⟨List.mem_cons_of_mem _ hmem, hnot,
            by simp only [List.find?, hcw]; exact hfind⟩
      · have hw2 : w ∈ dedupSourcesAcc (acc ++ [c]) rest := by
          simpa [dedupSourcesAcc, hany] using hw
        rcases ih (acc ++ [c]) hw2 with h | ⟨hmem, hnot, hfind⟩
        · rcases List.mem_append.1 h with h | h
          · exact Or.inl h
          · simp only [List.mem_singleton] at h
            subst h
            right
            refine ⟨List.mem_cons_self _ _, ?_, ?_⟩
            · intro a ha
              simp only [List.any_eq_true, decide_eq_true_eq, not_exists, not_and] at hany
              exact hany a ha
            · have hcw : (w.uri == w.uri) = true := by rw [beq_iff_eq]
              simp only [List.find?, hcw]
        · right
          have hcw : (c.uri == w.uri) = false := by
            rw [beq_eq_false_iff_ne]
            intro he
            exact hnot c (List.mem_append_right _ (List.mem_singleton_self _)) he
          exact ⟨List.mem_cons_of_mem _ hmem,
            fun a ha => hnot a (List.mem_append_left _ ha),
            by simp only [List.find?, hcw]; exact hfind⟩

/-- Helper for C10: every uri of the input is represented in the dedup
result. -/
theorem dedupSourcesAcc_complete (l : List WebSource) (acc : List WebSource)
    (w : WebSource) (hw : w ∈ l) :
    ∃ w2 ∈ dedupSourcesAcc acc l, w2.uri = w.uri := by
  induction l generalizing acc with
  | nil => cases hw
  | cons c rest ih =>
      by_cases hany : acc.any (fun item => item.uri = c.uri)
      · have hstep : dedupSourcesAcc acc (c :: rest) = dedupSourcesAcc acc rest := by
          simp [dedupSourcesAcc, hany]
        rcases List.mem_cons.1 hw with he | hw2
        · subst he
          simp only [List.any_eq_true, decide_eq_true_eq] at hany
          obtain ⟨a, ha, hae⟩ := hany
          obtain ⟨r, hr, _⟩ := dedupSourcesAcc_append rest acc
          exact ⟨a, by rw [hstep, hr]; exact List.mem_append_left _ ha, hae⟩
        · rw [hstep]
          exact ih acc hw2
      · have hstep : dedupSourcesAcc acc (c :: rest) = dedupSourcesAcc (acc ++ [c]) rest := by
          simp [dedupSourcesAcc, hany]
        rcases List.mem_cons.1 hw with he | hw2
        · obtain ⟨r, hr, _⟩ := dedupSourcesAcc_append rest (acc ++ [c])
          refine ⟨c, ?_, by rw [he]⟩
          rw [hstep, hr]
          exact List.mem_append_left _ (List.mem_append_right _ (List.mem_singleton_self _))
        · rw [hstep]
          exact ih (acc ++ [c]) hw2

/-- C10: the `sources` list built by `findArtists` contains only grounding
chunks whose `web` entry has a (truthy) uri and title, has pairwise distinct
uris, keeps the first occurrence of each uri, and preserves the order of first
occurrence (it is a sublist of the filtered grounding list). -/
theorem findArtists_sources_characterisation :
    ∀ (groundingChunks : List GroundingChunk),
      (∀ w ∈ sourcesOfChunks groundingChunks,
        (∃ chunk, chunk ∈ groundingChunks ∧ chunk.web = some w) ∧
          jsTruthy w.uri = true ∧ jsTruthy w.title = true) ∧
      ((sourcesOfChunks groundingChunks).map (fun w => w.uri)).Nodup ∧
      List.Sublist (sourcesOfChunks groundingChunks)
        ((groundingChunks.filterMap (·.web)).filter webTruthy) ∧
      (∀ w ∈ sourcesOfChunks groundingChunks,
        ((groundingChunks.filterMap (·.web)).filter webTruthy).find?
          (fun x => x.uri == w.uri) = some w) ∧
      (∀ w ∈ (groundingChunks.filterMap (·.web)).filter webTruthy,
        ∃ w2 ∈ sourcesOfChunks groundingChunks, w2.uri = w.uri) := by
  intro groundingChunks
  obtain ⟨r, hr, hsub⟩ :=
    dedupSourcesAcc_append ((groundingChunks.filterMap (·.web)).filter webTruthy) []
  have hsubsources :
      List.Sublist (sourcesOfChunks groundingChunks)
        ((groundingChunks.filterMap (·.web)).filter webTruthy) := by
    rw [sourcesOfChunks, hr]
    simpa using hsub
  refine ⟨?_, ?_, hsubsources, ?_, ?_⟩
  · intro w hw
    have hwf : w ∈ (groundingChunks.filterMap (·.web)).filter webTruthy :=
      hsubsources.subset hw
    rw [List.mem_filter] at hwf
    obtain ⟨hwm, hwt⟩ := hwf
    rw [List.mem_filterMap] at hwm
    obtain ⟨chunk, hc, hcw⟩ := hwm
    rw [webTruthy, Bool.and_eq_true] at hwt
    exact ⟨⟨chunk, hc, hcw⟩, hwt.1, hwt.2⟩
  · exact dedupSourcesAcc_nodup _ [] (by simp)
  · intro w hw
    rcases dedupSourcesAcc_first _ [] w hw with h | ⟨_, _, hfind⟩
    · cases h
    · exact hfind
  · intro w hw
    exact dedupSourcesAcc_complete _ [] w hw

/-- C10, witness. -/
theorem findArtists_sources_characterisation_witness :
    jsTruthy ({ uri := some "https://a", title := some "A" } : WebSource).uri = true ∧
    ((sourcesOfChunks chunksExample).map (fun w => w.uri)).Nodup ∧
    ((chunksExample.filterMap (·.web)).filter webTruthy).find?
      (fun x => x.uri == ({ uri := some "https://a", title := some "A" } : WebSource).uri) =
      some { uri := some "https://a", title := some "A" } :=
  ⟨((findArtists_sources_characterisation chunksExample).1
      { uri := some "https://a", title := some "A" } (by decide)).2.1,
   (findArtists_sources_characterisation chunksExample).2.1,
   (findArtists_sources_characterisation chunksExample).2.2.2.1
      { uri := some "https://a", title := some "A" } (by decide)⟩

/-- Helper for C9: splitting a comma-free string gives one piece. -/
theorem jsSplitComma_no_comma (l : List Char) (h : ∀ c ∈ l, c ≠ ',') :
    jsSplitComma l = [l] := by
  induction l with
  | nil => rfl
  | cons c rest ih =>
      have hc : c ≠ ',' := h c (List.mem_cons_self _ _)
      have hr := ih (fun x hx => h x (List.mem_cons_of_mem _ hx))
      simp [jsSplitComma, hc, hr]

/-- Helper for C9: splitting at the first comma after a comma-free piece. -/
theorem jsSplitComma_append (l1 l2 : List Char) (h : ∀ c ∈ l1, c ≠ ',') :
    jsSplitComma (l1 ++ ',' :: l2) = l1 :: jsSplitComma l2 := by
  induction l1 with
  | nil => simp [jsSplitComma]
  | cons c rest ih =>
      have hc : c ≠ ',' := h c (List.mem_cons_self _ _)
      have hr := ih (fun x hx => h x (List.mem_cons_of_mem _ hx))
      simp [jsSplitComma, hc, hr]

/-- Helper for C9: the lazy scan stops exactly at the first semicolon. -/
theorem scanToSemi_append (m r : List Char)
    (h : ∀ c ∈ m, c ≠ ';' ∧ ¬ isJsLineTerminator c) :
    scanToSemi (m ++ ';' :: r) = some m := by
  induction m with
  | nil => simp [scanToSemi]
  | cons c rest ih =>
      obtain ⟨h1, h2⟩ := h c (List.mem_cons_self _ _)
      have hr := ih (fun x hx => h x (List.mem_cons_of_mem _ hx))
      simp [scanToSemi, h1, h2, hr]

/-- Helper for C9: the `/:(.*?);/` match on `data:mime;base64` recovers the
MIME type. -/
theorem matchColonSemi_dataUrl (mime : List Char) (h : mimeTypeOk mime) :
    matchColonSemi ("data:".data ++ mime ++ ";base64".data) = some mime := by
  have hscan : scanToSemi (mime ++ ";base64".data) = some mime := by
    have hsemi : (";base64".data : List Char) = ';' :: "base64".data := rfl
    rw [hsemi]
    exact scanToSemi_append mime _
      (fun c hc => ⟨(h.2 c hc).2.1, (h.2 c hc).2.2.2⟩)
  show matchColonSemi ('d' :: 'a' :: 't' :: 'a' :: ':' :: (mime ++ ";base64".data)) = some mime
  simp [matchColonSemi, hscan]

/-- C9: parsing `data:` ++ m ++ `;base64,` ++ d with `dataURLtoFile` recovers
the MIME type m and the base64 decoding of d (the round trip with the
service layer's data-URI construction), and on any comma-free input both
`dataURLtoFile` and the parsing step of `fileToPart` throw
`Invalid data URL`. -/
theorem dataUrl_roundTrip_and_invalid :
    (∀ (mime payload filename : List Char) (bytes : List Nat),
      mimeTypeOk mime → (∀ c ∈ payload, c ≠ ',') → atob payload = some bytes →
      dataURLtoFile (dataUriChars mime payload) filename =
        Except.ok { name := filename, type := mime, bytes := bytes }) ∧
    (∀ (s filename : List Char), (∀ c ∈ s, c ≠ ',') →
      dataURLtoFile s filename = Except.error "Invalid data URL" ∧
      fileToPartParse s = Except.error "Invalid data URL") := by
  constructor
  · intro mime payload filename bytes hm hp hb
    have hdata : dataUriChars mime payload =
        ("data:".data ++ mime ++ ";base64".data) ++ (',' :: payload) := by
      show "data:".data ++ mime ++ ";base64,".data ++ payload = _
      have h7 : (";base64,".data : List Char) = ";base64".data ++ [','] := rfl
      rw [h7]
      simp [List.append_assoc]
    have hl1 : ∀ c ∈ ("data:".data ++ mime ++ ";base64".data), c ≠ ',' := by
      intro c hc
      rcases List.mem_append.1 hc with h1 | h2
      · rcases List.mem_append.1 h1 with ha | hb2
        · exact (by decide : ∀ x ∈ ("data:".data : List Char), x ≠ ',') c ha
        · exact (hm.2 c hb2).1
      · exact (by decide : ∀ x ∈ (";base64".data : List Char), x ≠ ',') c h2
    have hsplit : jsSplitComma (dataUriChars mime payload) =
        [("data:".data ++ mime ++ ";base64".data), payload] := by
      rw [hdata, jsSplitComma_append _ _ hl1, jsSplitComma_no_comma payload hp]
    have hmatch : matchColonSemi
        ('d' :: 'a' :: 't' :: 'a' :: ':' :: (mime ++ [';', 'b', 'a', 's', 'e', '6', '4'])) =
          some mime :=
      matchColonSemi_dataUrl mime hm
    simp [dataURLtoFile, hsplit, hmatch, hm.1, hb]
  · intro s filename hs
    have hsplit := jsSplitComma_no_comma s hs
    constructor
    · simp [dataURLtoFile, hsplit]
    · simp [fileToPartParse, hsplit]

/-- C9, witness. -/
theorem dataUrl_roundTrip_witness :
    mimeTypeOk "image/png".data ∧
    dataURLtoFile (dataUriChars "image/png".data "TWFu".data) "f.png".data =
      Except.ok { name := "f.png".data, type := "image/png".data, bytes := [77, 97, 110] } ∧
    dataURLtoFile "nocomma".data "f".data = Except.error "Invalid data URL" ∧
    fileToPartParse "nocomma".data = Except.error "Invalid data URL" := by
  refine ⟨by decide, ?_, ?_, ?_⟩
  · exact dataUrl_roundTrip_and_invalid.1 "image/png".data "TWFu".data "f.png".data
      [77, 97, 110] (by decide) (by decide) (by decide)
  · exact (dataUrl_roundTrip_and_invalid.2 "nocomma".data "f".data (by decide)).1
  · exact (dataUrl_roundTrip_and_invalid.2 "nocomma".data "f".data (by decide)).2

/-- Helper for C7: states whose step is neither `TRY_ON` nor `DONE` satisfy the
flow invariant vacuously. -/
theorem designFlowInvariant_of_step_ne (s : AppState)
    (ht : s.step ≠ .tryOn) (hd : s.step ≠ .done) : designFlowInvariant s :=
  ⟨fun h => absurd h ht, fun h => absurd h hd⟩

/-- Helper for C7: every event preserves the flow invariant. -/
theorem designFlowInvariant_step (st : AppState) (e : Event)
    (h : designFlowInvariant st) : designFlowInvariant (applyEvent st e) := by
  obtain ⟨h1, h2⟩ := h
  cases e with
  | startDesign =>
      simp only [applyEvent]
      split
      · exact designFlowInvariant_of_step_ne _ (by simp) (by simp)
      · exact ⟨h1, h2⟩
  | startFindArtist =>
      simp only [applyEvent]
      split
      · exact designFlowInvariant_of_step_ne _ (by simp) (by simp)
      · exact ⟨h1, h2⟩
  | setPrompt text =>
      simp only [applyEvent]
      split
      · exact ⟨h1, h2⟩
      · exact ⟨h1, h2⟩
  | generateSuccess imgs => exact ⟨h1, h2⟩
  | selectTattoo t =>
      simp only [applyEvent]
      split
      · exact ⟨fun _ => rfl, fun hstep => by simp at hstep⟩
      · exact ⟨h1, h2⟩
  | uploadTryOn img =>
      simp only [applyEvent]
      split
      · exact ⟨h1, h2⟩
      · exact ⟨h1, h2⟩
  | blendStart =>
      simp only [applyEvent]
      split
      · exact ⟨h1, h2⟩
      · exact ⟨h1, h2⟩
  | blendSuccess img =>
      simp only [applyEvent]
      split
      · exact ⟨fun hstep => by simp at hstep, fun _ => rfl⟩
      · exact ⟨h1, h2⟩
  | doneFindArtist =>
      simp only [applyEvent]
      split
      · exact designFlowInvariant_of_step_ne _ (by simp) (by simp)
      · exact ⟨h1, h2⟩
  | showGallery =>
      exact designFlowInvariant_of_step_ne _ (by simp [applyEvent]) (by simp [applyEvent])
  | reset =>
      exact designFlowInvariant_of_step_ne _ (by simp [applyEvent]) (by simp [applyEvent])
  | saveProject env artist design => exact ⟨h1, h2⟩
  | viewProject p =>
      simp only [applyEvent]
      split
      · exact ⟨h1, h2⟩
      · exact ⟨h1, h2⟩
  | closeProject => exact ⟨h1, h2⟩
  | deleteProject =>
      rcases hv : st.viewingProject with _ | vp
      · simp only [applyEvent, deleteProjectHandler, hv]
        exact ⟨h1, h2⟩
      · simp only [applyEvent, deleteProjectHandler, hv]
        exact ⟨h1, h2⟩
  | stencilSuccess data =>
      rcases hv : st.viewingProject with _ | vp
      · simp only [applyEvent, hv]
        exact ⟨h1, h2⟩
      · simp only [applyEvent, hv, updateProject]
        exact ⟨h1, h2⟩
  | sendUserMessage text timestamp =>
      rcases hv : st.viewingProject with _ | vp
      · simp only [applyEvent, hv]
        exact ⟨h1, h2⟩
      · simp only [applyEvent, hv, updateProject]
        exact ⟨h1, h2⟩
  | artistReplySuccess text timestamp =>
      rcases hv : st.viewingProject with _ | vp
      · simp only [applyEvent, hv]
        exact ⟨h1, h2⟩
      · simp only [applyEvent, hv, updateProject]
        exact ⟨h1, h2⟩

/-- Helper for C7: the invariant holds along every run. -/
theorem designFlowInvariant_run (evs : List Event) (st : AppState)
    (h : designFlowInvariant st) : designFlowInvariant (runEvents st evs) := by
  induction evs generalizing st with
  | nil => exact h
  | cons e rest ih => exact ih _ (designFlowInvariant_step st e h)

/-- C7: the wizard follows the linear designing flow: from `START` the user
enters `DESIGN`; choosing a generated design moves to `TRY_ON` with that
design selected; a successful blend moves to `DONE` setting the final image;
from `DONE` the user proceeds to `FIND_ARTIST`; the gallery is reachable; and
in every reachable state `TRY_ON` holds only with a selected tattoo and `DONE`
only with a final image set. -/
theorem appStep_linear_flow :
    (∀ evs : List Event, designFlowInvariant (runEvents initState evs)) ∧
    (∀ st : AppState, st.step = .start → (applyEvent st .startDesign).step = .design) ∧
    (∀ (st : AppState) (t : String), st.step = .design → t ∈ st.generatedTattoos →
      (applyEvent st (.selectTattoo t)).step = .tryOn ∧
      (applyEvent st (.selectTattoo t)).selectedTattoo = some t) ∧
    (∀ (st : AppState) (img : String), st.blendPending = true →
      (applyEvent st (.blendSuccess img)).step = .done ∧
      (applyEvent st (.blendSuccess img)).finalImage = some img) ∧
    (∀ st : AppState, st.step = .done → (applyEvent st .doneFindArtist).step = .findArtist) ∧
    (∀ st : AppState, (applyEvent st .showGallery).step = .gallery) := by
  refine ⟨?_, ?_, ?_, ?_, ?_, ?_⟩
  · intro evs
    exact designFlowInvariant_run evs initState
      (designFlowInvariant_of_step_ne _ (by simp [initState]) (by simp [initState]))
  · intro st hs
    simp [applyEvent, hs]
  · intro st t hs ht
    constructor <;> simp [applyEvent, hs, ht]
  · intro st img hb
    constructor <;> simp [applyEvent, hb]
  · intro st hs
    simp [applyEvent, hs]
  · intro st
    simp [applyEvent]

/-- C7, witness. -/
theorem appStep_linear_flow_witness :
    (runEvents initState
      [Event.startDesign, Event.generateSuccess ["t"], Event.selectTattoo "t"]).selectedTattoo.isSome
      = true ∧
    (applyEvent { initState with step := .design, generatedTattoos := ["t"] }
      (Event.selectTattoo "t")).step = .tryOn := by
  constructor
  · exact (appStep_linear_flow.1
      [Event.startDesign, Event.generateSuccess ["t"], Event.selectTattoo "t"]).1 (by decide)
  · exact (appStep_linear_flow.2.2.1 { initState with step := .design, generatedTattoos := ["t"] }
      "t" rfl (by decide)).1

end InkGenius
